import Mathlib

/-!
Verification of the rath compiler frontend (tokenizer, precedence-climbing
parser, syntax-tree model, constant folder).

Shallow embedding conventions:
* C++ uint64_t values are Nat values below 2^64; arithmetic wraps mod 2^64
  where the C++ wraps, and C++ undefined behavior (integer division by zero,
  oversized shifts, out-of-range double-to-integer conversion) is modelled as
  a distinct "ub" outcome.
* C++ double values are modelled as exact rationals; every concrete literal
  used in a theorem (1, 1.5, 2.5, ...) is exactly representable as a double,
  so double arithmetic agrees with rational arithmetic at those points.
* Raw pointers that may be null are modelled by the dedicated tree
  constructor Expr.enull; fallible code returns Except.
* Exceptions (the single ParserError channel) are modelled as Except with
  the core message string; the positional "Error in file:line" wrapper
  added by ParserError.from is not modelled.
-/

namespace Rath

/-- Error outcome of a parse or fold call: "err" is a thrown ParserError
carrying its message, "ub" marks C++ undefined behavior (which the source
can hit, e.g. integer division by zero), an outcome no C++ exception
models. -/
inductive PError where
  | err (msg : String)
  | ub (msg : String)
  deriving DecidableEq, Repr

/-- TokenType enum from ast.hh. -/
inductive TokenType where
  | none | eof | ident | string | number | keyword | operator
  | lparen | rparen | lcurly | rcurly | lbracket | rbracket
  | comma | arrow | semicolon | newline
  deriving DecidableEq, Repr

/-- Token object from ast.hh: kind, raw text, byte offset, line number. -/
structure Token where
  type : TokenType
  text : String
  start : Nat
  lineno : Nat
  deriving DecidableEq, Repr

/-- Token::operator bool from the repository: Eof and None are falsy,
every other token kind is truthy. -/
def Token.toB (t : Token) : Bool :=
  match t.type with
  | .eof => false
  | .none => false
  | _ => true

/-- The default-constructed Token(None) returned by a failed maybe-consume. -/
def noneToken : Token := ⟨.none, "", 0, 0⟩

/-- The Token(Eof) the lexer returns once input is exhausted. -/
def eofToken : Token := ⟨.eof, "", 0, 0⟩

/-! ## Lexer (modelled from the latest lexer sources and the spec)

The repository's current lexer implementation file (the one matching the
two-argument Lexer::feed declared in ast.hh) is not among the sources; the
available snapshots hold an older lexer. Character classes, token readers
and the dispatch of Lexer::next below follow that latest available snapshot.
One behavior is modelled from the spec instead: the spec's token list gives
a dedicated newline token kind, and the parser requires newline tokens as
statement terminators, so a bare line feed is emitted as a newline token
rather than skipped (the older snapshot skips it as whitespace). -/

def OperatorChars : List Char := ['+','-','*','/','%','.',':','=','<','>','|','&','^']

/-- Keyword list. The latest lexer snapshot lists switch, case, when, if,
else, then, let, open, ref, return, func; "const" is added because the
current ast.hh defines KeywordConst and parser.cc consumes it as a keyword.
(null and this are deliberately NOT keywords: parse_constant handles them
as identifiers.) -/
def Keywords : List String :=
  ["switch", "case", "when", "if", "else", "then",
   "let", "open", "ref", "return", "func", "const"]

/-- Valid operator lexemes, from the latest lexer snapshot. -/
def Operators : List String :=
  ["+", "-", "*", "/", "%",
   "<<", ">>", "&", "^", "|",
   ".", "=", ":=", "->", "...",
   ">", "<", ">=", "<=", "==", "!=", "&&", "||"]

def is_operator_char (c : Char) : Bool := OperatorChars.contains c
def is_digit (c : Char) : Bool := '0' ≤ c ∧ c ≤ '9'
def is_numeric (c : Char) : Bool := is_digit c ∨ c = '.'
def is_ident_start (c : Char) : Bool :=
  ('a' ≤ c ∧ c ≤ 'z') ∨ ('A' ≤ c ∧ c ≤ 'Z') ∨ c = '_' ∨ c = '$'
def is_ident_char (c : Char) : Bool := is_ident_start c ∨ is_digit c
def is_grammar (c : Char) : Bool :=
  c = '(' ∨ c = ')' ∨ c = '{' ∨ c = '}' ∨
  c = '[' ∨ c = ']' ∨ c = ',' ∨ c = ';'

/-- strcount from the repository: occurrences of a character in a string. -/
def strcount (s : String) (c : Char) : Nat := s.data.count c

/-- Result of producing one token: the token, the remaining characters,
the new byte position and the new line counter. -/
abbrev LexStep := Token × List Char × Nat × Nat

/-- parse_string: the opening quote is skipped, every character other than
a quote is taken, and the closing quote position is stepped over (the
scanner runs to end of input on an unterminated string, with no error). -/
def lex_string (cs : List Char) (pos line : Nat) : LexStep :=
  let body := cs.takeWhile (fun c => c ≠ '"')
  (⟨.string, String.mk body, pos + 1, line⟩,
   cs.drop (body.length + 1), pos + 2 + body.length, line)

/-- parse_number: a maximal run of digits and dots; more than one dot is a
hard lexical error. -/
def lex_number (cs : List Char) (pos line : Nat) : Except PError LexStep :=
  let body := cs.takeWhile is_numeric
  let text := String.mk body
  if strcount text '.' > 1 then
    .error (.err ("Invalid float literal " ++ text))
  else
    .ok (⟨.number, text, pos, line⟩, cs.drop body.length, pos + body.length, line)

/-- parse_operator: a maximal run of operator characters; the text must be a
listed operator, and the arrow gets its dedicated token kind. -/
def lex_operator (cs : List Char) (pos line : Nat) : Except PError LexStep :=
  let body := cs.takeWhile is_operator_char
  let text := String.mk body
  let type : TokenType := if text = "->" then .arrow else .operator
  if Operators.contains text then
    .ok (⟨type, text, pos, line⟩, cs.drop body.length, pos + body.length, line)
  else
    .error (.err ("Invalid operator " ++ text))

/-- parse_ident: a maximal identifier run; keyword texts switch kind. -/
def lex_ident (cs : List Char) (pos line : Nat) : LexStep :=
  let body := cs.takeWhile is_ident_char
  let text := String.mk body
  let type : TokenType := if Keywords.contains text then .keyword else .ident
  (⟨type, text, pos, line⟩, cs.drop body.length, pos + body.length, line)

/-- parse_grammar: one punctuation character, one token. -/
def lex_grammar (c : Char) (cs : List Char) (pos line : Nat) : LexStep :=
  let type : TokenType :=
    if c = '(' then .lparen else if c = ')' then .rparen
    else if c = '{' then .lcurly else if c = '}' then .rcurly
    else if c = '[' then .lbracket else if c = ']' then .rbracket
    else if c = ',' then .comma else if c = ';' then .semicolon
    else .none
  (⟨type, String.mk [c], pos, line⟩, cs, pos + 1, line)

/-- Modelled from the spec: the current lexer implementation file (the
one matching the two-argument Lexer::feed declared in ast.hh) is missing
from the sources, and the spec's token list and terminator rule give the
newline its own token kind, so a line feed yields a newline token (and
bumps the line counter) instead of being skipped as the older snapshots
do. Everything else follows Lexer::next of the latest snapshot: skip
space, tab and carriage return, then dispatch on the first character; an
unclassifiable character is a hard error. -/
def lexNext : List Char → Nat → Nat → Except PError LexStep
  | [], pos, line => .ok (eofToken, [], pos, line)
  | c :: cs, pos, line =>
    if c = '\n' then
      .ok (⟨.newline, "\n", pos, line⟩, cs, pos + 1, line + 1)
    else if c = ' ' ∨ c = '\t' ∨ c = '\r' then
      lexNext cs (pos + 1) line
    else if c = '"' then .ok (lex_string cs pos line)
    else if is_digit c then lex_number (c :: cs) pos line
    else if is_operator_char c then lex_operator (c :: cs) pos line
    else if is_ident_start c then .ok (lex_ident (c :: cs) pos line)
    else if is_grammar c then .ok (lex_grammar c cs pos line)
    else .error (.err ("Invalid char: " ++ String.mk [c]))

/-- Run the lexer to the end of input, collecting the token stream (the
fuel argument only bounds the loop; one unit is spent per token and the
top-level entry point passes enough for any input). -/
def tokenize : Nat → List Char → Nat → Nat → Except PError (List Token)
  | 0, _, _, _ => .error (.err "lexer fuel exhausted")
  | fu + 1, cs, pos, line => do
    let (t, cs', pos', line') ← lexNext cs pos line
    if t.type = .eof then
      .ok []
    else do
      let rest ← tokenize fu cs' pos' line'
      .ok (t :: rest)

def tokenizeStr (s : String) : Except PError (List Token) :=
  tokenize (s.length + 1) s.data 0 1


/-! ## Syntax tree model (ast.hh) -/

/-- Bit flags of Var (Var::Flag in ast.hh). -/
def FlagRef : Nat := 2
def FlagConst : Nat := 4
def FlagPacked : Nat := 8

/-- Data of a Var node as stored in declaration and parameter lists
(class Var in ast.hh): source token, bit flags, name. -/
structure VarData where
  tok : Token
  flags : Nat
  name : String
  deriving DecidableEq, Repr

/-- Payload of a Const node, one variant per ConstExprType: ConstInt
(uint64), ConstFloat (double, idealized as an exact rational), ConstString,
Var (EConstIdent), Null, This. -/
inductive ConstData where
  | cint (value : Nat)
  | cfloat (value : Rat)
  | cstring (value : String)
  | cvar (flags : Nat) (name : String)
  | cnull
  | cthis
  deriving DecidableEq, Repr

/-- The syntax-tree node variants of ast.hh. Every node carries its source
token. A C++ null child pointer is the enull constructor. The Case node's
condition field statically holds a CaseCondition in C++; here it is an Expr
built with the caseCond constructor. -/
inductive Expr where
  | enull
  | unop (tok : Token) (value : Expr)
  | binop (tok : Token) (left right : Expr)
  | econst (tok : Token) (d : ConstData)
  | call (tok : Token) (name : String) (args : List Expr)
  | efunc (tok : Token) (name : String) (args : List VarData) (body : Expr)
  | ereturn (tok : Token) (value : Expr)
  | block (tok : Token) (body : List Expr)
  | eif (tok : Token) (body else_body condition : Expr)
  | eswitch (tok : Token) (value : Expr) (cases : List Expr)
  | ecase (tok : Token) (body condition : Expr)
  | caseCond (tok : Token) (value condition : Expr) (is_direct : Bool)
  | assign (tok : Token) (value : Expr) (vars : List VarData)
  deriving Repr

/-- Null-pointer test on a child slot. -/
def Expr.isNull : Expr → Bool
  | .enull => true
  | _ => false

/-- The token a node carries (expr->token). Reading the token of a null
pointer would be undefined in C++; the parser only does so on nodes it has
just built, so the noneToken default is never observable there. -/
def Expr.tokOf : Expr → Token
  | .enull => noneToken
  | .unop tok _ => tok
  | .binop tok _ _ => tok
  | .econst tok _ => tok
  | .call tok _ _ => tok
  | .efunc tok _ _ _ => tok
  | .ereturn tok _ => tok
  | .block tok _ => tok
  | .eif tok _ _ _ => tok
  | .eswitch tok _ _ => tok
  | .ecase tok _ _ => tok
  | .caseCond tok _ _ _ => tok
  | .assign tok _ _ => tok

/-! ## Parser state and token primitives (parser.cc) -/

/-- Parser state: the one-token cursor (Parser::current) and the not yet
pulled remainder of the token stream. The C++ pushback queue plus lexer
pair always hands tokens over in stream order, so the pair of the cursor
and the remaining stream is a faithful state. -/
structure Parser where
  current : Token
  toks : List Token
  deriving DecidableEq, Repr

/-- Parser::next: pop the front of the stream; once exhausted the lexer
keeps returning Token(Eof). -/
def Parser.nextTok (p : Parser) : Token × List Token :=
  match p.toks with
  | [] => (eofToken, [])
  | t :: ts => (t, ts)

/-- Parser::peek: pull one token and requeue it, i.e. look at the front of
the stream without consuming. -/
def Parser.peekTok (p : Parser) : Token := p.nextTok.1

/-- The last two lines of a successful consume: return the old current and
step current to next(). -/
def Parser.advance (p : Parser) : Token × Parser :=
  let (t, ts) := p.nextTok
  (p.current, ⟨t, ts⟩)

/-- Token::type_str. -/
def tts : TokenType → String
  | .none => "None" | .eof => "Eof" | .ident => "Ident" | .string => "String"
  | .number => "Number" | .keyword => "Keyword" | .operator => "Operator"
  | .lparen => "LParen" | .rparen => "RParen" | .lcurly => "LCurly"
  | .rcurly => "RCurly" | .lbracket => "LBracket" | .rbracket => "RBracket"
  | .comma => "Comma" | .arrow => "Arrow" | .semicolon => "Semicolon"
  | .newline => "Newline"

/-- Parser::consume_error: a maybe-consume failure yields the falsy
Token(None) without advancing; a hard failure throws. -/
def Parser.consumeErr (p : Parser) (ty : TokenType) (str : String)
    (maybe has_type : Bool) : Except PError (Token × Parser) :=
  if maybe then .ok (noneToken, p)
  else if ¬has_type then
    .error (.err ("Expected " ++ str ++ ", got " ++ p.current.text))
  else
    .error (.err ("Expected " ++ tts ty ++ ", got " ++ tts p.current.type))

/-- Parser::consume(type, str, maybe, has_type), the core all overloads
funnel into: an optional text check, an optional type check, then pop. -/
def Parser.consume (p : Parser) (ty : TokenType) (str : String)
    (maybe has_type : Bool) : Except PError (Token × Parser) :=
  if str.length > 0 ∧ p.current.text ≠ str then p.consumeErr ty str maybe has_type
  else if has_type ∧ p.current.type ≠ ty then p.consumeErr ty str maybe has_type
  else .ok p.advance

/-- Overload consume(): consume the current token unconditionally. -/
def Parser.consumeCur (p : Parser) : Except PError (Token × Parser) :=
  p.consume p.current.type "" false true

/-- Overload consume(TokenType, bool). -/
def Parser.consumeT (p : Parser) (ty : TokenType) (maybe : Bool) :
    Except PError (Token × Parser) :=
  p.consume ty "" maybe true

/-- Overload consume(TokenType, string, bool) as used at call sites such as
consume(Keyword, KeywordDeclare) and consume(Operator, "=", true). -/
def Parser.consumeTS (p : Parser) (ty : TokenType) (str : String)
    (maybe : Bool) : Except PError (Token × Parser) :=
  p.consume ty str maybe true

/-! ## Operator precedence and associativity (parser.cc) -/

/-- op_unary: prefix operators. -/
def op_unary (op : String) : Bool := op = "-" ∨ op = "&"

inductive OpAssoc where
  | opLeft | opRight
  deriving DecidableEq, Repr

/-- op_assoc: the assignment family is right-associative, everything else
left-associative. -/
def op_assoc (op : String) : OpAssoc :=
  if op = "=" ∨ op = ":=" then .opRight else .opLeft

def comparators : List String := ["==", "!=", ">", "<", ">=", "<="]

/-- op_prec: the operator precedence table. -/
def op_prec (op : String) : Int :=
  if op = "=" ∨ op = ":=" then 0
  else if op = "||" then 1
  else if op = "&&" then 2
  else if op = "|" then 3
  else if op = "^" then 4
  else if op = "&" then 5
  else if op = "!=" ∨ op = "==" then 6
  else if comparators.contains op then 7
  else if op = "+" ∨ op = "-" then 8
  else if op = "*" ∨ op = "/" ∨ op = "%" then 9
  else if op = "." then 10
  else -1

/-- expects_end: whether a statement must be followed by a terminator;
brace-terminated constructs (and anything tail-ending in one) do not. -/
def expects_end : Expr → Bool
  | .enull => false
  | .eswitch _ _ _ => false
  | .block _ _ => false
  | .eif _ body _ _ => expects_end body
  | .binop _ _ right => expects_end right
  | .efunc _ _ _ body => expects_end body
  | _ => true

/-! ## Literal conversion (parse_constant uses std::stoull / std::stod) -/

def digitsToNat (l : List Char) : Nat :=
  l.foldl (fun acc c => acc * 10 + (c.toNat - '0'.toNat)) 0

/-- std::stoull on the digit-only strings the lexer produces. -/
def stoull (s : String) : Nat := digitsToNat s.data

/-- std::stod on digits.digits literals, idealized as the exact decimal
rational; exact whenever that value is exactly a double, which holds at
every concrete literal appearing in a theorem below. -/
def stod (s : String) : Rat :=
  let intPart := s.data.takeWhile (fun c => c ≠ '.')
  let fracPart := (s.data.dropWhile (fun c => c ≠ '.')).drop 1
  mkRat (digitsToNat intPart * 10 ^ fracPart.length + digitsToNat fracPart)
    (10 ^ fracPart.length)

/-- parse_constant: string, null/this/identifier, int or float number. -/
def parse_constant (p : Parser) : Except PError (Expr × Parser) :=
  let token := p.current
  match token.type with
  | .string => do
    let (t, p) ← p.consumeCur
    .ok (.econst t (.cstring token.text), p)
  | .ident =>
    if token.text = "null" then do
      let (t, p) ← p.consumeCur
      .ok (.econst t .cnull, p)
    else if token.text = "this" then do
      let (t, p) ← p.consumeCur
      .ok (.econst t .cthis, p)
    else do
      let (t, p) ← p.consumeCur
      .ok (.econst t (.cvar 0 token.text), p)
  | .number =>
    if strcount token.text '.' > 0 then do
      let (t, p) ← p.consumeCur
      .ok (.econst t (.cfloat (stod token.text)), p)
    else do
      let (t, p) ← p.consumeCur
      .ok (.econst t (.cint (stoull token.text)), p)
  | _ => .ok (.enull, p)

/-- The declaration checks closing parse_assign (parser.cc): naming zero
variables, or a packed (variadic) first variable, throws. -/
def assign_validate (vars : List VarData) : Except PError Unit :=
  match vars with
  | [] => .error (.err "No variable name provided")
  | v :: _ =>
    if v.flags &&& FlagPacked ≠ 0 then
      .error (.err "single variable declaraction does not need to be packed")
    else .ok ()

/-- The CaseCondition fields a case clause accumulates before the node is
built; parse_case overwrites condition and value while gluing consecutive
case clauses together. -/
structure CCond where
  tok : Token
  value : Expr
  condition : Expr
  is_direct : Bool
  deriving Repr

/-! ## Recursive-descent parser (parser.cc)

All parsing functions take a fuel argument, spent one unit per recursive
call; the top-level entry passes ample fuel and fuel exhaustion surfaces as
a distinguished error, never as a parse result. C++ while loops become
accumulator-passing recursive helpers named after their host function. -/

def fuelErr {α : Type} : Except PError α := .error (.err "parser fuel exhausted")

mutual

/-- skip_newlines macro: while (p.consume(Newline, true)) continue. -/
def skip_newlines : Nat → Parser → Except PError Parser
  | 0, _ => fuelErr
  | fu + 1, p => do
    let (t, p') ← p.consumeT .newline true
    if t.toB then skip_newlines fu p' else .ok p'

/-- consume_end: a statement that expects an end must be followed by a
newline or else a semicolon; trailing newlines are then skipped. -/
def consume_end : Nat → Parser → Expr → Except PError Parser
  | 0, _, _ => fuelErr
  | fu + 1, p, e => do
    let p ←
      if expects_end e then do
        let (t, p₁) ← p.consumeT .newline true
        if t.toB then pure p₁
        else do
          let (_, p₂) ← p₁.consumeT .semicolon false
          pure p₂
      else pure p
    skip_newlines fu p

/-- Parser::parse body after the lexer is primed: parse one expression;
if tokens remain, require a terminator, parse the rest as a block and
prepend the first expression to its body. -/
def parse_top : Nat → Parser → Except PError (Expr × Parser)
  | 0, _ => fuelErr
  | fu + 1, p => do
    let (e, p) ← parse_expr fu p
    if ¬(p.current.type = .eof) ∧ ¬e.isNull then do
      let p ← consume_end fu p e
      let (btok, body, p) ← parse_block fu p
      .ok (.block btok (e :: body), p)
    else .ok (e, p)

/-- parse_block: an optional opening curly, then statements until a
closing curly or end of input. -/
def parse_block : Nat → Parser → Except PError (Token × List Expr × Parser)
  | 0, _ => fuelErr
  | fu + 1, p => do
    let btok := p.current
    let (_, p) ← p.consumeT .lcurly true
    let (body, p) ← parse_block_loop fu p []
    .ok (btok, body, p)

/-- The while loop of parse_block. Note that a successful maybe-consume of
Eof yields the falsy Eof token, so the first test never breaks; the final
test breaks via .is(Eof). -/
def parse_block_loop : Nat → Parser → List Expr → Except PError (List Expr × Parser)
  | 0, _, _ => fuelErr
  | fu + 1, p, acc => do
    let (t1, p) ← p.consumeT .eof true
    if t1.toB then .ok (acc, p) else do
    let (t2, p) ← p.consumeT .rcurly true
    if t2.toB then .ok (acc, p) else do
    let (e, p) ← parse_expr fu p
    let acc := if e.isNull then acc else acc ++ [e]
    let (t3, p) ← p.consumeT .rcurly true
    if t3.toB then .ok (acc, p) else do
    let (t4, p) ← p.consumeT .eof true
    if t4.type = .eof then .ok (acc, p) else do
    let p ← consume_end fu p e
    parse_block_loop fu p acc

/-- parse_expr: skip newlines, dispatch on keyword-led forms, a leading
curly starts a block, otherwise a general statement. -/
def parse_expr : Nat → Parser → Except PError (Expr × Parser)
  | 0, _ => fuelErr
  | fu + 1, p => do
    let p ← skip_newlines fu p
    let token := p.current
    if token.type = .lcurly then do
      let (btok, body, p) ← parse_block fu p
      .ok (.block btok body, p)
    else if token.type = .keyword then
      if token.text = "let" then parse_assign fu p
      else if token.text = "func" then parse_func fu p true
      else if token.text = "if" then parse_if fu p
      else if token.text = "switch" then parse_switch fu p
      else if token.text = "return" then parse_return fu p
      else parse_statement fu p 0
    else parse_statement fu p 0

/-- parse_return. The source builds Return(p.consume(), parse_statement(p));
the two argument expressions mutate the parser in an order C++ leaves
indeterminate, and the g++ right-to-left order is modelled: the value is
parsed first, then one further token is consumed as the node's token. -/
def parse_return : Nat → Parser → Except PError (Expr × Parser)
  | 0, _ => fuelErr
  | fu + 1, p => do
    let (_, p) ← p.consumeTS .keyword "return" false
    let (v, p) ← parse_statement fu p 0
    let (rtok, p) ← p.consumeCur
    .ok (.ereturn rtok v, p)

/-- parse_statement: precedence climbing; one positional operand, then the
binary-operator loop. -/
def parse_statement : Nat → Parser → Int → Except PError (Expr × Parser)
  | 0, _, _ => fuelErr
  | fu + 1, p, prec => do
    let (lhs, p) ← parse_positional fu p
    parse_statement_loop fu p prec lhs

/-- The while loop of parse_statement: consume operators of precedence at
least the minimum, bump the minimum for left-associative ones, hard error
on bare = and ..., recurse for the right operand, build a Binop. -/
def parse_statement_loop : Nat → Parser → Int → Expr → Except PError (Expr × Parser)
  | 0, _, _, _ => fuelErr
  | fu + 1, p, prec, lhs =>
    if p.current.type = .operator ∧ op_prec p.current.text ≥ prec then do
      let (token, p) ← p.consumeCur
      let next_prec := op_prec token.text +
        (if op_assoc token.text = .opLeft then 1 else 0)
      if token.text = "=" then
        .error (.err "'=' only allowed in variable declaration ")
      else if token.text = "..." then
        .error (.err "Illegal varargs '...' operator")
      else do
        let p ← skip_newlines fu p
        let (rhs, p) ← parse_statement fu p next_prec
        parse_statement_loop fu p prec (.binop token lhs rhs)
    else .ok (lhs, p)

/-- parse_positional: prefix unary operators, parenthesized
sub-expressions, leaf constants and calls, and keyword-led leaf forms. -/
def parse_positional : Nat → Parser → Except PError (Expr × Parser)
  | 0, _ => fuelErr
  | fu + 1, p =>
    let token := p.current
    if op_unary token.text then do
      let (unop_token, p) ← p.consumeCur
      let next_prec := op_prec unop_token.text
      let (v, p) ← parse_statement fu p next_prec
      .ok (.unop unop_token v, p)
    else
      match token.type with
      | .ident =>
        if p.peekTok.type = .lparen then parse_call fu p
        else parse_constant p
      | .number => parse_constant p
      | .string => parse_constant p
      | .lparen => do
        let (_, p) ← p.consumeT .lparen false
        let p ← skip_newlines fu p
        let (v, p) ← parse_statement fu p 0
        let p ← skip_newlines fu p
        let (_, p) ← p.consumeT .rparen false
        .ok (v, p)
      | .keyword =>
        if token.text = "func" then parse_func fu p false
        else if token.text = "switch" then parse_switch fu p
        else if token.text = "if" then parse_if fu p
        else .error (.err ("Unexpected keyword '" ++ token.text ++ "'"))
      | _ => .ok (.enull, p)

/-- parse_call: name and both parens, comma-separated argument list. -/
def parse_call : Nat → Parser → Except PError (Expr × Parser)
  | 0, _ => fuelErr
  | fu + 1, p => do
    let ctok := p.current
    let cname := p.current.text
    let (_, p) ← p.consumeT .ident false
    let (_, p) ← p.consumeT .lparen false
    let (args, p) ← parse_call_loop fu p []
    .ok (.call ctok cname args, p)

/-- The argument loop of parse_call. -/
def parse_call_loop : Nat → Parser → List Expr → Except PError (List Expr × Parser)
  | 0, _, _ => fuelErr
  | fu + 1, p, acc => do
    let (t1, p) ← p.consumeT .rparen true
    if t1.toB then .ok (acc, p) else do
    let p ← skip_newlines fu p
    let (a, p) ← parse_statement fu p 0
    let acc := acc ++ [a]
    let p ← skip_newlines fu p
    let (t2, p) ← p.consumeT .rparen true
    if t2.toB then .ok (acc, p) else do
    let p ← skip_newlines fu p
    let (_, p) ← p.consumeT .comma false
    parse_call_loop fu p acc

/-- parse_assign: the let keyword, optional ref/const flags, the variable
list up to =, the declaration checks, then the assigned value. -/
def parse_assign : Nat → Parser → Except PError (Expr × Parser)
  | 0, _ => fuelErr
  | fu + 1, p => do
    let (atok, p) ← p.consumeTS .keyword "let" false
    let (tref, p) ← p.consumeTS .keyword "ref" true
    let flags := if tref.toB then FlagRef else 0
    let (tconst, p) ← p.consumeTS .keyword "const" true
    let flags := flags ||| (if tconst.toB then FlagConst else 0)
    let (vars, p) ← parse_assign_vars fu p flags []
    let _ ← assign_validate vars
    let (v, p) ← parse_statement fu p 0
    .ok (.assign atok v vars, p)

/-- The variable-list loop of parse_assign: stop at =, otherwise an
optional ... flag, a required name, then = or a comma. -/
def parse_assign_vars : Nat → Parser → Nat → List VarData →
    Except PError (List VarData × Parser)
  | 0, _, _, _ => fuelErr
  | fu + 1, p, flags, acc => do
    let (te, p) ← p.consumeTS .operator "=" true
    if te.toB then .ok (acc, p) else do
    let (tp, p) ← p.consumeTS .operator "..." true
    let var_flag := flags ||| (if tp.toB then FlagPacked else 0)
    let (name, p) ← p.consumeT .ident false
    let acc := acc ++ [⟨name, var_flag, name.text⟩]
    let (te2, p) ← p.consumeTS .operator "=" true
    if te2.toB then .ok (acc, p) else do
    let (_, p) ← p.consumeT .comma false
    parse_assign_vars fu p flags acc

/-- parse_func: the func keyword, an optional name, a parenthesized or
bare parameter list ended by the arrow, then the body expression. -/
def parse_func : Nat → Parser → Bool → Except PError (Expr × Parser)
  | 0, _, _ => fuelErr
  | fu + 1, p, has_name => do
    let (ftok, p) ← p.consumeTS .keyword "func" false
    let (name, p) ←
      if has_name then do
        let (t, p) ← p.consumeT .ident false
        pure (t.text, p)
      else pure ("", p)
    let (hpTok, p) ← p.consumeT .lparen true
    let has_paren := hpTok.toB
    let (args, p) ← parse_func_args fu p has_paren []
    let (_, p) ← p.consumeT .arrow true
    let (body, p) ← parse_expr fu p
    .ok (.efunc ftok name args body, p)

/-- The parameter loop of parse_func, with its doubled ref/const flag
consumes and the variadic flag. -/
def parse_func_args : Nat → Parser → Bool → List VarData →
    Except PError (List VarData × Parser)
  | 0, _, _, _ => fuelErr
  | fu + 1, p, has_paren, acc => do
    let endTy : TokenType := if has_paren then .rparen else .arrow
    let (t1, p) ← p.consumeT endTy true
    if t1.toB then .ok (acc, p) else do
    let (r1, p) ← p.consumeTS .keyword "ref" true
    let flags := if r1.toB then FlagRef else 0
    let (c1, p) ← p.consumeTS .keyword "const" true
    let flags := flags ||| (if c1.toB then FlagConst else 0)
    let (r2, p) ← p.consumeTS .keyword "ref" true
    let flags := flags ||| (if r2.toB then FlagRef else 0)
    let (c2, p) ← p.consumeTS .keyword "const" true
    let flags := flags ||| (if c2.toB then FlagConst else 0)
    let (pk, p) ← p.consumeTS .operator "..." true
    let flags := flags ||| (if pk.toB then FlagPacked else 0)
    let (argName, p) ← p.consumeT .ident false
    let acc := acc ++ [(⟨argName, flags, argName.text⟩ : VarData)]
    let (t2, p) ← p.consumeT endTy true
    if t2.toB then .ok (acc, p) else do
    let (_, p) ← p.consumeT .comma false
    parse_func_args fu p has_paren acc

/-- parse_if: optional parenthesized condition, optional then sugar or an
arrow, the body, and an optional else branch. -/
def parse_if : Nat → Parser → Except PError (Expr × Parser)
  | 0, _ => fuelErr
  | fu + 1, p => do
    let (itok, p) ← p.consumeTS .keyword "if" false
    let (paren, p) ← p.consumeT .lparen true
    let (condition, p) ← parse_statement fu p 0
    let (paren, p) ←
      if paren.toB then do
        let (_, p) ← p.consumeT .rparen false
        pure (({ paren with type := TokenType.none } : Token), p)
      else pure (paren, p)
    let (thenTok, p) ← p.consumeTS .keyword "then" true
    let p ←
      if ¬thenTok.toB then do
        let (_, p) ← p.consumeT .arrow (if paren.toB then true else false)
        pure p
      else pure p
    let (body, p) ← parse_expr fu p
    let (elseTok, p) ← p.consumeTS .keyword "else" true
    let (else_expr, p) ←
      if elseTok.toB then parse_expr fu p
      else pure (Expr.enull, p)
    .ok (.eif itok body else_expr condition, p)

/-- parse_switch: the scrutinee statement, optional arrow, and the braced
case list. -/
def parse_switch : Nat → Parser → Except PError (Expr × Parser)
  | 0, _ => fuelErr
  | fu + 1, p => do
    let (stok, p) ← p.consumeTS .keyword "switch" false
    let (value, p) ← parse_statement fu p 0
    let (_, p) ← p.consumeT .arrow true
    let (_, p) ← p.consumeT .lcurly false
    let (cases, p) ← parse_switch_loop fu p value []
    .ok (.eswitch stok value cases, p)

/-- The case loop of parse_switch. -/
def parse_switch_loop : Nat → Parser → Expr → List Expr →
    Except PError (List Expr × Parser)
  | 0, _, _, _ => fuelErr
  | fu + 1, p, value, acc => do
    let p ← skip_newlines fu p
    let (t1, p) ← p.consumeT .rcurly true
    if t1.toB then .ok (acc, p) else do
    let p ← skip_newlines fu p
    let (c, p) ← parse_case fu p value
    let acc := acc ++ [c]
    let p ← skip_newlines fu p
    let (t2, p) ← p.consumeT .rcurly true
    if t2.toB then .ok (acc, p) else
    parse_switch_loop fu p value acc

/-- parse_case: one case condition, the OR-accumulation loop over
consecutive case clauses, the arrow, and the body. -/
def parse_case : Nat → Parser → Expr → Except PError (Expr × Parser)
  | 0, _, _ => fuelErr
  | fu + 1, p, value => do
    let (ctok, p) ← p.consumeTS .keyword "case" false
    let (cc, p) ← parse_case_condition fu p value
    let p ← skip_newlines fu p
    let (cc, p) ← parse_case_or fu p value cc
    let p ← skip_newlines fu p
    let (_, p) ← p.consumeT .arrow false
    let (body, p) ← parse_expr fu p
    .ok (.ecase ctok body (.caseCond cc.tok cc.value cc.condition cc.is_direct), p)

/-- The while loop of parse_case: each further case clause ORs its
condition onto the accumulated one (the new Binop takes the clause's token
with its text overwritten to the or operator) and overwrites the tracked
bound value with the last-seen one. -/
def parse_case_or : Nat → Parser → Expr → CCond → Except PError (CCond × Parser)
  | 0, _, _, _ => fuelErr
  | fu + 1, p, value, cond => do
    let (t, p) ← p.consumeTS .keyword "case" true
    if ¬t.toB then .ok (cond, p) else do
    let (and_cond, p) ← parse_case_condition fu p value
    let ortok := { and_cond.tok with text := "||" }
    let cond := { cond with
      condition := Expr.binop ortok cond.condition and_cond.condition,
      value := and_cond.value }
    let p ← skip_newlines fu p
    parse_case_or fu p value cond

/-- parse_case_condition: a bound value, then either an explicit when
guard, or a synthesized equality between the scrutinee and the bound value
(the Binop takes the scrutinee's token with its text overwritten). -/
def parse_case_condition : Nat → Parser → Expr → Except PError (CCond × Parser)
  | 0, _, _ => fuelErr
  | fu + 1, p, value => do
    let (set_value, p) ← parse_statement fu p 0
    let (w, p) ← p.consumeTS .keyword "when" true
    if w.toB then do
      let (cond, p) ← parse_statement fu p 0
      .ok (⟨set_value.tokOf, set_value, cond, false⟩, p)
    else
      let eqtok := { value.tokOf with text := "==" }
      .ok (⟨set_value.tokOf, set_value, .binop eqtok value set_value, true⟩, p)

end

/-- Parser::parse end to end: tokenize, prime the cursor with the first
token, run the parser. -/
def parseProgram (s : String) : Except PError Expr := do
  let toks ← tokenizeStr s
  let p : Parser :=
    match toks with
    | [] => ⟨eofToken, []⟩
    | t :: ts => ⟨t, ts⟩
  let (e, _) ← parse_top (s.length + 100) p
  .ok e

/-! ## Position-erased tree shapes

Claims about parse results speak about tree shape: node kinds, operator
texts, constant values, names and flags. The shape function erases byte
offsets and line numbers, keeping exactly that. -/

/-- Shape of a syntax tree: Expr with tokens erased except the operator
text a Unop or Binop node carries. -/
inductive SExpr where
  | snull
  | sunop (op : String) (value : SExpr)
  | sbinop (op : String) (left right : SExpr)
  | sconst (d : ConstData)
  | scall (name : String) (args : List SExpr)
  | sfunc (name : String) (args : List (Nat × String)) (body : SExpr)
  | sret (value : SExpr)
  | sblock (body : List SExpr)
  | sif (body else_body condition : SExpr)
  | sswitch (value : SExpr) (cases : List SExpr)
  | scase (body condition : SExpr)
  | scaseCond (value condition : SExpr) (is_direct : Bool)
  | sassign (value : SExpr) (vars : List (Nat × String))
  deriving Repr

mutual

/-- Erase positions from a tree, keeping structure, operator texts,
constant payloads, names and flags. -/
def shapeE : Expr → SExpr
  | .enull => .snull
  | .unop tok v => .sunop tok.text (shapeE v)
  | .binop tok l r => .sbinop tok.text (shapeE l) (shapeE r)
  | .econst _ d => .sconst d
  | .call _ n args => .scall n (shapeList args)
  | .efunc _ n args body =>
      .sfunc n (args.map (fun v => (v.flags, v.name))) (shapeE body)
  | .ereturn _ v => .sret (shapeE v)
  | .block _ body => .sblock (shapeList body)
  | .eif _ b e c => .sif (shapeE b) (shapeE e) (shapeE c)
  | .eswitch _ v cs => .sswitch (shapeE v) (shapeList cs)
  | .ecase _ b c => .scase (shapeE b) (shapeE c)
  | .caseCond _ v c d => .scaseCond (shapeE v) (shapeE c) d
  | .assign _ v vars => .sassign (shapeE v) (vars.map (fun vd => (vd.flags, vd.name)))

def shapeList : List Expr → List SExpr
  | [] => []
  | e :: es => shapeE e :: shapeList es

end

/-! ## Constant folder (the fold translation unit)

uint64_t arithmetic with explicit wrapping; C++ undefined behavior is the
distinct ub outcome. -/

/-- uint64_t addition (wraps). -/
def u64add (a b : Nat) : Nat := (a + b) % 2 ^ 64

/-- uint64_t subtraction (wraps); operands are below 2^64 wherever the
folder calls this. -/
def u64sub (a b : Nat) : Nat := (a + (2 ^ 64 - b % 2 ^ 64)) % 2 ^ 64

/-- uint64_t multiplication (wraps). -/
def u64mul (a b : Nat) : Nat := a * b % 2 ^ 64

/-- uint64_t division; a zero divisor is undefined behavior, not an
exception. -/
def u64div (a b : Nat) : Except PError Nat :=
  if b = 0 then .error (.ub "integer division by zero")
  else .ok (a / b)

/-- uint64_t remainder; a zero divisor is undefined behavior. -/
def u64mod (a b : Nat) : Except PError Nat :=
  if b = 0 then .error (.ub "integer remainder by zero")
  else .ok (a % b)

/-- uint64_t left shift; a shift amount of 64 or more is undefined
behavior. -/
def u64shl (a b : Nat) : Except PError Nat :=
  if b ≥ 64 then .error (.ub "oversized shift")
  else .ok (a <<< b % 2 ^ 64)

/-- uint64_t right shift; a shift amount of 64 or more is undefined
behavior. -/
def u64shr (a b : Nat) : Except PError Nat :=
  if b ≥ 64 then .error (.ub "oversized shift")
  else .ok (a >>> b)

/-- Exact rational addition, written through mkRat so that concrete folds
evaluate inside the kernel; agrees with the field addition of Rat. -/
def ratAdd (a b : Rat) : Rat := mkRat (a.num * b.den + b.num * a.den) (a.den * b.den)

/-- Exact rational subtraction through mkRat. -/
def ratSub (a b : Rat) : Rat := mkRat (a.num * b.den - b.num * a.den) (a.den * b.den)

/-- Exact rational multiplication through mkRat. -/
def ratMul (a b : Rat) : Rat := mkRat (a.num * b.num) (a.den * b.den)

/-- Conversion of a double to uint64_t (the ConstInt constructor argument
and the combinator return-type conversion): truncation toward zero,
undefined behavior outside [0, 2^64). -/
def ratToU64 (q : Rat) : Except PError Nat :=
  if q < 0 ∨ (2 : Rat) ^ 64 ≤ q then
    .error (.ub "double to uint64 conversion out of range")
  else .ok q.floor.toNat

/-- Double division. C++ doubles divide by zero to an IEEE infinity; an
infinity has no rational representative, so a zero divisor is flagged as a
model-level undefined outcome. No theorem below evaluates this branch. -/
def ratDiv (a b : Rat) : Except PError Rat :=
  if b.num = 0 then
    .error (.ub "float division by zero: infinity outside the rational model")
  else .ok (if 0 < b.num then mkRat (a.num * b.den) (a.den * b.num.toNat)
            else mkRat (-(a.num * b.den)) (a.den * (-b.num).toNat))

/-- The fold error thrown by the combinator when no operator case matches:
p.error(token, "Invalid operator %s on constant expressions", op). -/
def foldErrMsg (op : String) : PError :=
  .err ("Invalid operator " ++ op ++ " on constant expressions")

/-- const_combine instantiated at L = R = uint64_t, as reached by the
float-op-int branch of binop_resolve: only the cross (arithmetic)
operators, in uint64 arithmetic. -/
def const_combine_u64 (op : String) (left right : Nat) : Except PError Nat :=
  if op = "+" then .ok (u64add left right)
  else if op = "-" then .ok (u64sub left right)
  else if op = "*" then .ok (u64mul left right)
  else if op = "/" then u64div left right
  else .error (foldErrMsg op)

/-- const_combine_int instantiated at L = R = uint64_t (the int-op-int
branch): the cross operators plus the integer-only operators. -/
def const_combine_int_u64 (op : String) (left right : Nat) : Except PError Nat :=
  if op = "+" then .ok (u64add left right)
  else if op = "-" then .ok (u64sub left right)
  else if op = "*" then .ok (u64mul left right)
  else if op = "/" then u64div left right
  else if op = "&" then .ok (Nat.land left right)
  else if op = "^" then .ok (Nat.xor left right)
  else if op = "|" then .ok (Nat.lor left right)
  else if op = "%" then u64mod left right
  else if op = ">>" then u64shr left right
  else if op = "<<" then u64shl left right
  else .error (foldErrMsg op)

/-- const_combine instantiated at L = uint64_t, R = double (the
int-op-float branch): each operation runs in double after the usual C++
arithmetic conversions, and the result converts back to the uint64_t
return type, truncating. -/
def const_combine_u64_rat (op : String) (left : Nat) (right : Rat) :
    Except PError Nat :=
  if op = "+" then ratToU64 (ratAdd (mkRat left 1) right)
  else if op = "-" then ratToU64 (ratSub (mkRat left 1) right)
  else if op = "*" then ratToU64 (ratMul (mkRat left 1) right)
  else if op = "/" then do ratToU64 (← ratDiv (mkRat left 1) right)
  else .error (foldErrMsg op)

/-- const_combine instantiated at L = R = double (the float-op-float
branch): rational arithmetic, double result. -/
def const_combine_rat (op : String) (left right : Rat) : Except PError Rat :=
  if op = "+" then .ok (ratAdd left right)
  else if op = "-" then .ok (ratSub left right)
  else if op = "*" then .ok (ratMul left right)
  else if op = "/" then ratDiv left right
  else .error (foldErrMsg op)

/-- Narrowing of a uint64 value through the 32-bit int return type of the
combinator instantiated at L = int and back to uint64 through the ConstInt
constructor: keep the low 32 bits (g++ wraps the narrowing) and
sign-extend. -/
def i32roundtrip (u : Nat) : Nat :=
  let low := u % 2 ^ 32
  if low < 2 ^ 31 then low else 2 ^ 64 - 2 ^ 32 + low

/-- const_combine instantiated at L = int, R = uint64_t as the unary
integer path applies it: 0 op value in uint64 arithmetic, narrowed through
the int return type. -/
def const_combine_int0 (op : String) (right : Nat) : Except PError Nat :=
  if op = "+" then .ok (i32roundtrip (u64add 0 right))
  else if op = "-" then .ok (i32roundtrip (u64sub 0 right))
  else if op = "*" then .ok (i32roundtrip (u64mul 0 right))
  else if op = "/" then do .ok (i32roundtrip (← u64div 0 right))
  else .error (foldErrMsg op)

/-- is_ctype(e, EConstIdent): the operand is a Var node. -/
def isIdentC : ConstData → Bool
  | .cvar _ _ => true
  | _ => false

/-- binop_resolve: identifiers never fold; otherwise dispatch on the
operand type pair. Every numeric branch builds a ConstInt carrying the
left operand's token â the float branches included: the source wraps even
a double result in a ConstInt (truncating it), and its float-op-int branch
reads the left ConstFloat's payload through the ConstInt view, i.e.
reinterprets the double's bit pattern as an integer; that reinterpretation
depends on the IEEE layout and enters the model as the punBits parameter
(no theorem below evaluates it). Two strings concatenate under + only; any
unhandled type pair resolves to nothing (the C++ returns nullptr and the
operator node stays). -/
def binop_resolve (punBits : Rat → Nat) (tok : Token)
    (left right : Token × ConstData) :
    Except PError (Option (Token × ConstData)) :=
  if isIdentC left.2 ∨ isIdentC right.2 then .ok none
  else
    match left.2, right.2 with
    | .cint a, .cint b => do
        let v ← const_combine_int_u64 tok.text a b
        .ok (some (left.1, ConstData.cint v))
    | .cint a, .cfloat d => do
        let v ← const_combine_u64_rat tok.text a d
        .ok (some (left.1, ConstData.cint v))
    | .cfloat d, .cint b => do
        let v ← const_combine_u64 tok.text (punBits d) b
        .ok (some (left.1, ConstData.cint v))
    | .cfloat d, .cfloat e => do
        let q ← const_combine_rat tok.text d e
        let v ← ratToU64 q
        .ok (some (left.1, ConstData.cint v))
    | .cstring s, .cstring t =>
        if tok.text = "+" then .ok (some (left.1, ConstData.cstring (s ++ t)))
        else .ok none
    | _, _ => .ok none

/-- unary_resolve: an integer or float operand combines as 0 op value
through the combinator (the int path through the int-returning
instantiation, the float path keeping a ConstFloat); any other constant
kind throws. The built node carries the operator node's token. -/
def unary_resolve (tok : Token) (d : ConstData) :
    Except PError (Token × ConstData) :=
  match d with
  | .cint v => do
      let r ← const_combine_int0 tok.text v
      .ok (tok, ConstData.cint r)
  | .cfloat v => do
      let r ← const_combine_rat tok.text 0 v
      .ok (tok, ConstData.cfloat r)
  | _ => .error (.err ("Invalid unary operator " ++ tok.text ++ " on constant expression"))

/-- The combination step of the EUnop case once the operand has folded:
expr_is_const gates on a Const operand, unary_resolve combines (or
throws), and the fresh constant replaces the node; a non-constant operand
keeps the Unop. -/
def fold_unop_step (tok : Token) (v' : Expr) : Except PError Expr :=
  match v' with
  | .econst _ cd => do
      let (rt, rd) ← unary_resolve tok cd
      .ok (.econst rt rd)
  | _ => .ok (.unop tok v')

/-- The combination step of the EBinop case once both operands have
folded: with two Const operands binop_resolve either combines, declines
(nullptr, the Binop stays with its folded children), or throws; with any
non-constant operand the Binop stays. -/
def fold_binop_step (punBits : Rat → Nat) (tok : Token) (l' r' : Expr) :
    Except PError Expr :=
  match l', r' with
  | .econst lt ld, .econst rt rd => do
      match ← binop_resolve punBits tok (lt, ld) (rt, rd) with
      | some (ct, cd) => .ok (.econst ct cd)
      | none => .ok (.binop tok (.econst lt ld) (.econst rt rd))
  | _, _ => .ok (.binop tok l' r')

mutual

/-- constant_fold: bottom-up rewrite. Children fold first; a unary or
binary node whose operands are then constants combines through the
resolvers, a successful combination replacing the node by the fresh
constant. A null pointer, a constant, and any node kind the dispatch
switch lacks (notably If) return unchanged. The switch case folds only
the case list, not the scrutinee, exactly as the source does. -/
def constant_fold (punBits : Rat → Nat) : Expr → Except PError Expr
  | .enull => .ok .enull
  | .unop tok v => do
      let v' ← constant_fold punBits v
      fold_unop_step tok v'
  | .binop tok l r => do
      let l' ← constant_fold punBits l
      let r' ← constant_fold punBits r
      fold_binop_step punBits tok l' r'
  | .ereturn tok v => do
      let v' ← constant_fold punBits v
      .ok (.ereturn tok v')
  | .efunc tok n args body => do
      let b' ← constant_fold punBits body
      .ok (.efunc tok n args b')
  | .assign tok v vars => do
      let v' ← constant_fold punBits v
      .ok (.assign tok v' vars)
  | .call tok n args => do
      let args' ← fold_list punBits args
      .ok (.call tok n args')
  | .block tok body => do
      let body' ← fold_list punBits body
      .ok (.block tok body')
  | .eswitch tok v cs => do
      let cs' ← fold_list punBits cs
      .ok (.eswitch tok v cs')
  | .caseCond tok v c d => do
      let v' ← constant_fold punBits v
      let c' ← constant_fold punBits c
      .ok (.caseCond tok v' c' d)
  | .ecase tok b c => do
      let b' ← constant_fold punBits b
      let c' ← constant_fold punBits c
      .ok (.ecase tok b' c')
  | .econst tok d => .ok (.econst tok d)
  | .eif tok b e c => .ok (.eif tok b e c)

/-- const_fold_list: fold every element of a child list in order. -/
def fold_list (punBits : Rat → Nat) : List Expr → Except PError (List Expr)
  | [] => .ok []
  | e :: es => do
      let e' ← constant_fold punBits e
      let es' ← fold_list punBits es
      .ok (e' :: es')

end

/-! ## Ownership model for switch-tree destruction (ast.hh destructors)

Freed-exactly-once claims need node identity, which trees-as-values erase,
so nodes become numbered heap cells with pointer slots, and the destructor
semantics of ast.hh walks them, returning the exact sequence of deleted
ids. A doubly freed node shows up twice in the sequence; a node of the
heap missing from the sequence leaks. -/

/-- Node kinds the switch-destruction claims involve; hleaf stands for any
node whose destructor frees no children (the constants here). -/
inductive HKind where
  | hleaf | hbinop | hcaseCond | hcase | hswitch
  deriving DecidableEq, Repr

/-- A heap node: its kind, two pointer slots a (Binop.left, Case.body,
CaseCondition.value, Switch.value) and b (Binop.right, Case.condition,
CaseCondition.condition), the child-id vector (Switch.cases), and the
is_direct flag of a CaseCondition. -/
structure HNode where
  kind : HKind
  a : Option Nat
  b : Option Nat
  kids : List Nat
  direct : Bool
  deriving DecidableEq, Repr

/-- A heap: allocated node ids with their nodes. -/
abbrev Heap := List (Nat × HNode)

def hfind (h : Heap) (i : Nat) : Option HNode := h.lookup i

mutual

/-- Expr::free of a pointer slot, then the pointed-to node's destructor,
per ast.hh: deleting a null pointer is a no-op; a Binop frees left then
right; a Case frees body then condition; a CaseCondition frees its bound
value and then, exactly when is_direct holds and its condition points to a
Binop, nulls that Binop's operand slots and deletes just the Binop shell
(so nothing below it) â an indirect or non-Binop condition is not freed at
all; a Switch frees the scrutinee and then the case vector. Returns the
sequence of deleted ids; none only on fuel exhaustion or a dangling id. -/
def destroyP : Nat → Heap → Option Nat → Option (List Nat)
  | _, _, none => some []
  | 0, _, some _ => none
  | fu + 1, h, some i =>
    match hfind h i with
    | none => none
    | some nd =>
      match nd.kind with
      | .hleaf => some [i]
      | .hbinop => do
          let l ← destroyP fu h nd.a
          let r ← destroyP fu h nd.b
          some (l ++ r ++ [i])
      | .hcase => do
          let b ← destroyP fu h nd.a
          let c ← destroyP fu h nd.b
          some (b ++ c ++ [i])
      | .hcaseCond => do
          let v ← destroyP fu h nd.a
          let extra :=
            match nd.b with
            | some c =>
              match hfind h c with
              | some cnd => if nd.direct ∧ cnd.kind = .hbinop then [c] else []
              | none => []
            | none => []
          some (v ++ extra ++ [i])
      | .hswitch => do
          let v ← destroyP fu h nd.a
          let cs ← destroyKids fu h nd.kids
          some (v ++ cs ++ [i])

/-- Expr::free_list over the case vector. -/
def destroyKids : Nat → Heap → List Nat → Option (List Nat)
  | _, _, [] => some []
  | 0, _, _ :: _ => none
  | fu + 1, h, i :: is => do
      let x ← destroyP fu h (some i)
      let rest ← destroyKids fu h is
      some (x ++ rest)

end

/-- The heap of the tree parsed from
switch x -> { case y -> 20 case z -> 30 }:
two cases, each with a single implicit (non-compound) condition. Per
parse_switch and parse_case_condition: node 0 is the scrutinee owned by
the switch; nodes 2 and 7 are the synthesized equality Binops whose left
operand slots alias node 0 and whose conditions sit in the direct
CaseConditions 3 and 8; 1 and 6 are the bound values, aliased as the
CaseConditions' values and as the equalities' right operands; 4 and 9 the
case bodies; 5 and 10 the cases; 11 the switch. -/
def switchHeapSingle : Heap :=
  [(0, ⟨.hleaf, none, none, [], true⟩),
   (1, ⟨.hleaf, none, none, [], true⟩),
   (2, ⟨.hbinop, some 0, some 1, [], true⟩),
   (3, ⟨.hcaseCond, some 1, some 2, [], true⟩),
   (4, ⟨.hleaf, none, none, [], true⟩),
   (5, ⟨.hcase, some 4, some 3, [], true⟩),
   (6, ⟨.hleaf, none, none, [], true⟩),
   (7, ⟨.hbinop, some 0, some 6, [], true⟩),
   (8, ⟨.hcaseCond, some 6, some 7, [], true⟩),
   (9, ⟨.hleaf, none, none, [], true⟩),
   (10, ⟨.hcase, some 9, some 8, [], true⟩),
   (11, ⟨.hswitch, some 0, none, [5, 10], true⟩)]

/-- The heap of the tree parsed from
switch x -> { case 5 case 6 -> 10 }: one compound case. Per
parse_case and parse_case_condition: node 0 is the scrutinee; 1 and 3 the
two bound values; 2 and 4 the synthesized equalities (left slots aliasing
node 0); 5 the OR Binop glued over 2 and 4; 6 the second clause's
CaseCondition object, which parse_case absorbs (taking its condition and
value) and never deletes; 7 the surviving CaseCondition, still flagged
direct, whose condition is the OR node 5 and whose value was overwritten
to the last-seen bound value 3; 8 the body; 9 the case; 10 the switch. -/
def switchHeapCompound : Heap :=
  [(0, ⟨.hleaf, none, none, [], true⟩),
   (1, ⟨.hleaf, none, none, [], true⟩),
   (2, ⟨.hbinop, some 0, some 1, [], true⟩),
   (3, ⟨.hleaf, none, none, [], true⟩),
   (4, ⟨.hbinop, some 0, some 3, [], true⟩),
   (5, ⟨.hbinop, some 2, some 4, [], true⟩),
   (6, ⟨.hcaseCond, some 3, some 4, [], true⟩),
   (7, ⟨.hcaseCond, some 3, some 5, [], true⟩),
   (8, ⟨.hleaf, none, none, [], true⟩),
   (9, ⟨.hcase, some 8, some 7, [], true⟩),
   (10, ⟨.hswitch, some 0, none, [9], true⟩)]

/-! ## Lemmas about the folder -/

/-- A successful unary combination step yields either a fresh constant or
exactly the Unop over the folded operand. -/
theorem fold_unop_step_shape (tok : Token) (v' e' : Expr)
    (h : fold_unop_step tok v' = .ok e') :
    (∃ ct cd, e' = .econst ct cd) ∨ e' = .unop tok v' := by
  unfold fold_unop_step at h
  split at h
  next ct cd =>
    cases hu : unary_resolve tok cd with
    | error er => rw [hu] at h; simp [bind, Except.bind] at h
    | ok pr =>
      rw [hu] at h
      simp only [bind, Except.bind, Except.ok.injEq] at h
      exact Or.inl ⟨pr.1, pr.2, h.symm⟩
  next =>
    simp only [Except.ok.injEq] at h
    exact Or.inr h.symm

/-- A successful binary combination step yields either a fresh constant or
exactly the Binop over the two folded operands. -/
theorem fold_binop_step_shape (pun : Rat → Nat) (tok : Token) (l' r' e' : Expr)
    (h : fold_binop_step pun tok l' r' = .ok e') :
    (∃ ct cd, e' = .econst ct cd) ∨ e' = .binop tok l' r' := by
  unfold fold_binop_step at h
  split at h
  next lt ld rt rd =>
    cases hb : binop_resolve pun tok (lt, ld) (rt, rd) with
    | error er => rw [hb] at h; simp [bind, Except.bind] at h
    | ok o =>
      rw [hb] at h
      simp only [bind, Except.bind] at h
      cases o with
      | none =>
        simp only [Except.ok.injEq] at h
        exact Or.inr h.symm
      | some pr =>
        simp only [Except.ok.injEq] at h
        exact Or.inl ⟨pr.1, pr.2, h.symm⟩
  next =>
    simp only [Except.ok.injEq] at h
    exact Or.inr h.symm

mutual

/-- Idempotence of the folder: whatever a successful fold returns, folding
it again returns it unchanged. -/
theorem constant_fold_idem (pun : Rat → Nat) (e e' : Expr)
    (h : constant_fold pun e = .ok e') : constant_fold pun e' = .ok e' := by
  cases e with
  | enull =>
    simp only [constant_fold, Except.ok.injEq] at h
    subst h; simp [constant_fold]
  | econst tok d =>
    simp only [constant_fold, Except.ok.injEq] at h
    subst h; simp [constant_fold]
  | eif tok b el c =>
    simp only [constant_fold, Except.ok.injEq] at h
    subst h; simp [constant_fold]
  | unop tok v =>
    simp only [constant_fold] at h
    cases hv : constant_fold pun v with
    | error er => rw [hv] at h; simp [bind, Except.bind] at h
    | ok v' =>
      rw [hv] at h
      simp only [bind, Except.bind] at h
      rcases fold_unop_step_shape tok v' e' h with ⟨ct, cd, rfl⟩ | rfl
      · simp [constant_fold]
      · simp only [constant_fold]
        rw [constant_fold_idem pun v v' hv]
        simpa [bind, Except.bind] using h
  | binop tok l r =>
    simp only [constant_fold] at h
    cases hl : constant_fold pun l with
    | error er => rw [hl] at h; simp [bind, Except.bind] at h
    | ok l' =>
      rw [hl] at h
      simp only [bind, Except.bind] at h
      cases hr : constant_fold pun r with
      | error er => rw [hr] at h; simp [bind, Except.bind] at h
      | ok r' =>
        rw [hr] at h
        simp only [bind, Except.bind] at h
        rcases fold_binop_step_shape pun tok l' r' e' h with ⟨ct, cd, rfl⟩ | rfl
        · simp [constant_fold]
        · simp only [constant_fold]
          rw [constant_fold_idem pun l l' hl, constant_fold_idem pun r r' hr]
          simpa [bind, Except.bind] using h
  | ereturn tok v =>
    simp only [constant_fold] at h
    cases hv : constant_fold pun v with
    | error er => rw [hv] at h; simp [bind, Except.bind] at h
    | ok v' =>
      rw [hv] at h
      simp only [bind, Except.bind, Except.ok.injEq] at h
      subst h
      simp only [constant_fold]
      rw [constant_fold_idem pun v v' hv]
      simp [bind, Except.bind]
  | efunc tok n args body =>
    simp only [constant_fold] at h
    cases hv : constant_fold pun body with
    | error er => rw [hv] at h; simp [bind, Except.bind] at h
    | ok b' =>
      rw [hv] at h
      simp only [bind, Except.bind, Except.ok.injEq] at h
      subst h
      simp only [constant_fold]
      rw [constant_fold_idem pun body b' hv]
      simp [bind, Except.bind]
  | assign tok v vars =>
    simp only [constant_fold] at h
    cases hv : constant_fold pun v with
    | error er => rw [hv] at h; simp [bind, Except.bind] at h
    | ok v' =>
      rw [hv] at h
      simp only [bind, Except.bind, Except.ok.injEq] at h
      subst h
      simp only [constant_fold]
      rw [constant_fold_idem pun v v' hv]
      simp [bind, Except.bind]
  | call tok n args =>
    simp only [constant_fold] at h
    cases ha : fold_list pun args with
    | error er => rw [ha] at h; simp [bind, Except.bind] at h
    | ok args' =>
      rw [ha] at h
      simp only [bind, Except.bind, Except.ok.injEq] at h
      subst h
      simp only [constant_fold]
      rw [fold_list_idem pun args args' ha]
      simp [bind, Except.bind]
  | block tok body =>
    simp only [constant_fold] at h
    cases ha : fold_list pun body with
    | error er => rw [ha] at h; simp [bind, Except.bind] at h
    | ok body' =>
      rw [ha] at h
      simp only [bind, Except.bind, Except.ok.injEq] at h
      subst h
      simp only [constant_fold]
      rw [fold_list_idem pun body body' ha]
      simp [bind, Except.bind]
  | eswitch tok v cs =>
    simp only [constant_fold] at h
    cases ha : fold_list pun cs with
    | error er => rw [ha] at h; simp [bind, Except.bind] at h
    | ok cs' =>
      rw [ha] at h
      simp only [bind, Except.bind, Except.ok.injEq] at h
      subst h
      simp only [constant_fold]
      rw [fold_list_idem pun cs cs' ha]
      simp [bind, Except.bind]
  | ecase tok b c =>
    simp only [constant_fold] at h
    cases hb : constant_fold pun b with
    | error er => rw [hb] at h; simp [bind, Except.bind] at h
    | ok b' =>
      rw [hb] at h
      simp only [bind, Except.bind] at h
      cases hc : constant_fold pun c with
      | error er => rw [hc] at h; simp [bind, Except.bind] at h
      | ok c' =>
        rw [hc] at h
        simp only [bind, Except.bind, Except.ok.injEq] at h
        subst h
        simp only [constant_fold]
        rw [constant_fold_idem pun b b' hb, constant_fold_idem pun c c' hc]
        simp [bind, Except.bind]
  | caseCond tok v c d =>
    simp only [constant_fold] at h
    cases hv : constant_fold pun v with
    | error er => rw [hv] at h; simp [bind, Except.bind] at h
    | ok v' =>
      rw [hv] at h
      simp only [bind, Except.bind] at h
      cases hc : constant_fold pun c with
      | error er => rw [hc] at h; simp [bind, Except.bind] at h
      | ok c' =>
        rw [hc] at h
        simp only [bind, Except.bind, Except.ok.injEq] at h
        subst h
        simp only [constant_fold]
        rw [constant_fold_idem pun v v' hv, constant_fold_idem pun c c' hc]
        simp [bind, Except.bind]

/-- Idempotence of the folder over child lists. -/
theorem fold_list_idem (pun : Rat → Nat) (l l' : List Expr)
    (h : fold_list pun l = .ok l') : fold_list pun l' = .ok l' := by
  cases l with
  | nil =>
    simp only [fold_list, Except.ok.injEq] at h
    subst h; simp [fold_list]
  | cons e es =>
    simp only [fold_list] at h
    cases he : constant_fold pun e with
    | error er => rw [he] at h; simp [bind, Except.bind] at h
    | ok e' =>
      rw [he] at h
      simp only [bind, Except.bind] at h
      cases hes : fold_list pun es with
      | error er => rw [hes] at h; simp [bind, Except.bind] at h
      | ok es' =>
        rw [hes] at h
        simp only [bind, Except.bind, Except.ok.injEq] at h
        subst h
        simp only [fold_list]
        rw [constant_fold_idem pun e e' he, fold_list_idem pun es es' hes]
        simp [bind, Except.bind]

end

/-- A fixed instance of the bit-reinterpretation parameter, used to close
statements; no statement below ever evaluates the branch that consults
it. -/
def punZero : Rat → Nat := fun _ => 0

/-! ## Claims -/

/-- C1: the parser realizes the stated precedence table and
associativities: op_prec orders the assignment family (0) below or, and,
bitwise or/xor/and, equality, relational, additive and multiplicative
operators; op_assoc makes exactly the assignment family right-associative;
parsing 1 + 2 * 3 yields 1 + (2 * 3) and parsing 2 - 3 - 4 yields
(2 - 3) - 4. -/
theorem claim_C1_precedence_assoc :
    (op_prec "=" = 0 ∧ op_prec ":=" = 0 ∧
     op_prec "=" < op_prec "||" ∧ op_prec "||" < op_prec "&&" ∧
     op_prec "&&" < op_prec "|" ∧ op_prec "|" < op_prec "^" ∧
     op_prec "^" < op_prec "&" ∧ op_prec "&" < op_prec "==" ∧
     op_prec "==" = op_prec "!=" ∧ op_prec "==" < op_prec ">" ∧
     op_prec ">" = op_prec "<" ∧ op_prec ">" = op_prec ">=" ∧
     op_prec ">" = op_prec "<=" ∧ op_prec ">" < op_prec "+" ∧
     op_prec "+" = op_prec "-" ∧ op_prec "+" < op_prec "*" ∧
     op_prec "*" = op_prec "/" ∧ op_prec "*" = op_prec "%")
    ∧ (op_assoc "=" = .opRight ∧ op_assoc ":=" = .opRight ∧
       op_assoc "||" = .opLeft ∧ op_assoc "&&" = .opLeft ∧
       op_assoc "|" = .opLeft ∧ op_assoc "^" = .opLeft ∧
       op_assoc "&" = .opLeft ∧ op_assoc "==" = .opLeft ∧
       op_assoc "!=" = .opLeft ∧ op_assoc ">" = .opLeft ∧
       op_assoc "<" = .opLeft ∧ op_assoc ">=" = .opLeft ∧
       op_assoc "<=" = .opLeft ∧ op_assoc "+" = .opLeft ∧
       op_assoc "-" = .opLeft ∧ op_assoc "*" = .opLeft ∧
       op_assoc "/" = .opLeft ∧ op_assoc "%" = .opLeft)
    ∧ (parseProgram "1 + 2 * 3").map shapeE =
        .ok (.sbinop "+" (.sconst (.cint 1))
          (.sbinop "*" (.sconst (.cint 2)) (.sconst (.cint 3))))
    ∧ (parseProgram "2 - 3 - 4").map shapeE =
        .ok (.sbinop "-"
          (.sbinop "-" (.sconst (.cint 2)) (.sconst (.cint 3)))
          (.sconst (.cint 4))) :=
  ⟨by decide, by decide, rfl, rfl⟩

/-- C2: parsing the switch with the compound clause case 5 case 6 and the
clause case y yields a first case whose condition is the OR of the two
synthesized equalities against the scrutinee and whose tracked bound value
is the last-seen 6, and a second case whose condition is the equality
between the scrutinee and y. -/
theorem claim_C2_switch_compound :
    (parseProgram "switch x -> { case 5 case 6 -> 10 case y -> 20 }").map shapeE =
    .ok (.sswitch (.sconst (.cvar 0 "x"))
      [.scase (.sconst (.cint 10))
        (.scaseCond (.sconst (.cint 6))
          (.sbinop "||"
            (.sbinop "==" (.sconst (.cvar 0 "x")) (.sconst (.cint 5)))
            (.sbinop "==" (.sconst (.cvar 0 "x")) (.sconst (.cint 6)))) true),
       .scase (.sconst (.cint 20))
        (.scaseCond (.sconst (.cvar 0 "y"))
          (.sbinop "==" (.sconst (.cvar 0 "x")) (.sconst (.cvar 0 "y"))) true)]) := rfl

/-- C3: folding 2 + 3 * 4 substitutes the int literal 14 (carrying the
left operand's token); folding is idempotent â whatever a fold returns
refolds to itself; and folding x + 1 leaves the node unfolded, because an
identifier operand never folds. All of it for every value of the model's
bit-reinterpretation parameter. -/
theorem claim_C3_fold (pun : Rat → Nat) :
    constant_fold pun
      (.binop ⟨.operator, "+", 2, 1⟩
        (.econst ⟨.number, "2", 0, 1⟩ (.cint 2))
        (.binop ⟨.operator, "*", 6, 1⟩
          (.econst ⟨.number, "3", 4, 1⟩ (.cint 3))
          (.econst ⟨.number, "4", 8, 1⟩ (.cint 4)))) =
      .ok (.econst ⟨.number, "2", 0, 1⟩ (.cint 14))
    ∧ (∀ e e', constant_fold pun e = .ok e' → constant_fold pun e' = .ok e')
    ∧ constant_fold pun
        (.binop ⟨.operator, "+", 2, 1⟩
          (.econst ⟨.ident, "x", 0, 1⟩ (.cvar 0 "x"))
          (.econst ⟨.number, "1", 4, 1⟩ (.cint 1))) =
      .ok (.binop ⟨.operator, "+", 2, 1⟩
          (.econst ⟨.ident, "x", 0, 1⟩ (.cvar 0 "x"))
          (.econst ⟨.number, "1", 4, 1⟩ (.cint 1))) :=
  ⟨rfl, fun e e' h => constant_fold_idem pun e e' h, rfl⟩

/-- Witness for C3: the folded literal 14 refolds to itself, by the
idempotence conjunct applied to the fold of 2 + 3 * 4. -/
theorem claim_C3_witness :
    constant_fold punZero (.econst ⟨.number, "2", 0, 1⟩ (.cint 14)) =
      .ok (.econst ⟨.number, "2", 0, 1⟩ (.cint 14)) :=
  (claim_C3_fold punZero).2.1 _ _ (claim_C3_fold punZero).1

/-- C4, documenting the divergence at the failing input: folding 1 + 2.5
substitutes a ConstInt literal carrying 3 â the double sum 3.5 truncated
through the uint64 return type of the combinator and wrapped in a ConstInt
node â not a literal carrying the arithmetic value 3.5. The integer-only
conjunct of the claim does hold: folding 1.5 % 2.5 throws the fold
error. -/
theorem claim_C4_float_truncation (pun : Rat → Nat) :
    constant_fold pun
      (.binop ⟨.operator, "+", 2, 1⟩
        (.econst ⟨.number, "1", 0, 1⟩ (.cint 1))
        (.econst ⟨.number, "2.5", 4, 1⟩ (.cfloat (mkRat 5 2)))) =
      .ok (.econst ⟨.number, "1", 0, 1⟩ (.cint 3))
    ∧ constant_fold pun
        (.binop ⟨.operator, "%", 4, 1⟩
          (.econst ⟨.number, "1.5", 0, 1⟩ (.cfloat (mkRat 3 2)))
          (.econst ⟨.number, "2.5", 6, 1⟩ (.cfloat (mkRat 5 2)))) =
      .error (foldErrMsg "%") :=
  ⟨rfl, rfl⟩

/-- Witness for C4 at the fixed bit-reinterpretation instance. -/
theorem claim_C4_witness :
    constant_fold punZero
      (.binop ⟨.operator, "+", 2, 1⟩
        (.econst ⟨.number, "1", 0, 1⟩ (.cint 1))
        (.econst ⟨.number, "2.5", 4, 1⟩ (.cfloat (mkRat 5 2)))) =
      .ok (.econst ⟨.number, "1", 0, 1⟩ (.cint 3))
    ∧ constant_fold punZero
        (.binop ⟨.operator, "%", 4, 1⟩
          (.econst ⟨.number, "1.5", 0, 1⟩ (.cfloat (mkRat 3 2)))
          (.econst ⟨.number, "2.5", 6, 1⟩ (.cfloat (mkRat 5 2)))) =
      .error (foldErrMsg "%") :=
  claim_C4_float_truncation punZero

/-- C5 counterexample: folding the string expression "a" - "b" raises no
fold error â the fold succeeds and leaves the node untouched, against the
claim that every non-plus string operator throws. -/
theorem claim_C5_counterexample :
    constant_fold punZero
      (.binop ⟨.operator, "-", 4, 1⟩
        (.econst ⟨.string, "a", 0, 1⟩ (.cstring "a"))
        (.econst ⟨.string, "b", 6, 1⟩ (.cstring "b"))) =
      .ok (.binop ⟨.operator, "-", 4, 1⟩
        (.econst ⟨.string, "a", 0, 1⟩ (.cstring "a"))
        (.econst ⟨.string, "b", 6, 1⟩ (.cstring "b"))) := rfl

/-- C5 amended: two string-literal operands concatenate under +; under any
other operator the node is left unfolded, with no error â the operator
test sits inside the guard of the string branch of binop_resolve, so a
non-plus operator makes the resolver decline rather than throw. -/
theorem claim_C5_strings (pun : Rat → Nat) (tok lt rt : Token)
    (s t : String) (hop : tok.text ≠ "+") :
    constant_fold pun
      (.binop tok (.econst lt (.cstring s)) (.econst rt (.cstring t))) =
      .ok (.binop tok (.econst lt (.cstring s)) (.econst rt (.cstring t)))
    ∧ constant_fold pun
        (.binop { tok with text := "+" }
          (.econst lt (.cstring s)) (.econst rt (.cstring t))) =
      .ok (.econst lt (.cstring (s ++ t))) := by
  constructor
  · simp [constant_fold, fold_binop_step, binop_resolve, isIdentC, hop,
      bind, Except.bind]
  · simp [constant_fold, fold_binop_step, binop_resolve, isIdentC,
      bind, Except.bind]

/-- Witness for C5 amended, at the minus operator. -/
theorem claim_C5_witness :
    constant_fold punZero
      (.binop ⟨.operator, "-", 4, 1⟩
        (.econst ⟨.string, "c", 0, 1⟩ (.cstring "c"))
        (.econst ⟨.string, "d", 6, 1⟩ (.cstring "d"))) =
      .ok (.binop ⟨.operator, "-", 4, 1⟩
        (.econst ⟨.string, "c", 0, 1⟩ (.cstring "c"))
        (.econst ⟨.string, "d", 6, 1⟩ (.cstring "d")))
    ∧ constant_fold punZero
        (.binop ⟨.operator, "+", 4, 1⟩
          (.econst ⟨.string, "c", 0, 1⟩ (.cstring "c"))
          (.econst ⟨.string, "d", 6, 1⟩ (.cstring "d"))) =
      .ok (.econst ⟨.string, "c", 0, 1⟩ (.cstring "cd")) :=
  claim_C5_strings punZero ⟨.operator, "-", 4, 1⟩
    ⟨.string, "c", 0, 1⟩ ⟨.string, "d", 6, 1⟩ "c" "d" (by decide)

/-- C6: a declaration naming zero variables throws the declaration error,
one whose first variable is variadic throws the packed-declaration error,
a plain declaration passes, and in general the checks pass every variable
list whose first entry lacks the packed flag. -/
theorem claim_C6_declaration_checks :
    parseProgram "let = 5" = .error (.err "No variable name provided")
    ∧ parseProgram "let ...x = 5" =
        .error (.err "single variable declaraction does not need to be packed")
    ∧ (parseProgram "let x = 5").map shapeE =
        .ok (.sassign (.sconst (.cint 5)) [(0, "x")])
    ∧ (∀ v vs, v.flags &&& FlagPacked = 0 →
        assign_validate (v :: vs) = .ok ()) := by
  refine ⟨rfl, rfl, rfl, ?_⟩
  intro v vs hv
  simp [assign_validate, hv]

/-- Witness for C6: the check passes a one-variable unflagged list. -/
theorem claim_C6_witness :
    assign_validate [⟨⟨.ident, "x", 4, 1⟩, 0, "x"⟩] = .ok () :=
  claim_C6_declaration_checks.2.2.2 ⟨⟨.ident, "x", 4, 1⟩, 0, "x"⟩ [] (by decide)

/-- C7 counterexample: parsing x = y = 5 does not succeed â the statement
loop hard-errors on a bare = outside a declaration. -/
theorem claim_C7_counterexample :
    parseProgram "x = y = 5" =
      .error (.err "'=' only allowed in variable declaration ") := rfl

/-- C7 amended: the assignment family is right-associative in the
precedence-climbing logic, but a bare = is a hard statement-level error,
so x = y = 5 throws; the declare-assign operator := exercises the
right-associativity: x := y := 5 parses as x := (y := 5). -/
theorem claim_C7_assign_right_assoc :
    op_assoc "=" = .opRight ∧ op_assoc ":=" = .opRight
    ∧ parseProgram "x = y = 5" =
        .error (.err "'=' only allowed in variable declaration ")
    ∧ (parseProgram "x := y := 5").map shapeE =
        .ok (.sbinop ":=" (.sconst (.cvar 0 "x"))
          (.sbinop ":=" (.sconst (.cvar 0 "y")) (.sconst (.cint 5)))) :=
  ⟨rfl, rfl, rfl, rfl⟩

/-- C8: inside a block a newline token terminates a statement that expects
an end: two declarations separated only by a line break parse into a block
of the two assignments, with no semicolon. -/
theorem claim_C8_newline_terminator :
    (parseProgram "let x = 1
let y = 2").map shapeE =
      .ok (.sblock
        [.sassign (.sconst (.cint 1)) [(0, "x")],
         .sassign (.sconst (.cint 2)) [(0, "y")]]) := rfl

/-- C9 counterexample: destroying the switch tree with the compound
implicit condition leaks: the freed sequence misses node 2, the first
inner synthesized equality, although the heap holds it â so it is not the
case that no node is leaked by the case-condition. -/
theorem claim_C9_counterexample :
    destroyP 20 switchHeapCompound (some 10) = some [0, 8, 3, 5, 7, 9, 10]
    ∧ (2, (⟨.hbinop, some 0, some 1, [], true⟩ : HNode)) ∈ switchHeapCompound
    ∧ List.count 2 [0, 8, 3, 5, 7, 9, 10] = 0 :=
  ⟨rfl, by decide, by decide⟩

/-- C9 amended: for the switch whose every case has a single implicit
condition, destruction frees every allocated node exactly once â the
scrutinee exactly once, by the switch â because each direct case-condition
nulls the synthesized equality's operand slots before deleting it; with a
compound (OR-merged) condition the scrutinee is still freed exactly once
and no node twice, but the inner equality nodes, the superseded bound
value and the absorbed CaseCondition object leak. -/
theorem claim_C9_scrutinee_freed_once :
    destroyP 20 switchHeapSingle (some 11) =
      some [0, 4, 1, 2, 3, 5, 9, 6, 7, 8, 10, 11]
    ∧ (∀ p ∈ switchHeapSingle,
        List.count p.1 [0, 4, 1, 2, 3, 5, 9, 6, 7, 8, 10, 11] = 1)
    ∧ destroyP 20 switchHeapCompound (some 10) = some [0, 8, 3, 5, 7, 9, 10]
    ∧ List.count 0 [0, 8, 3, 5, 7, 9, 10] = 1
    ∧ List.Nodup [0, 8, 3, 5, 7, 9, 10] :=
  ⟨rfl, by decide, rfl, by decide, by decide⟩

/-- Witness for C9 amended: the scrutinee of the single-condition switch
is freed exactly once. -/
theorem claim_C9_witness :
    List.count 0 [0, 4, 1, 2, 3, 5, 9, 6, 7, 8, 10, 11] = 1 :=
  claim_C9_scrutinee_freed_once.2.1 (0, ⟨.hleaf, none, none, [], true⟩) (by decide)

/-- C10: folding a division or remainder of two int literals has no
zero-divisor guard: a nonzero right operand folds directly to the
quotient or remainder literal, and a zero right operand raises no
FoldError â the fold runs into C++ undefined behavior (the model's
distinct ub outcome), so these folds are well-defined exactly when the
right operand is nonzero. -/
theorem claim_C10_division_unguarded (pun : Rat → Nat) (a b : Nat)
    (p1 n1 p2 n2 p3 n3 : Nat) :
    (b ≠ 0 →
      constant_fold pun
        (.binop ⟨.operator, "/", p1, n1⟩
          (.econst ⟨.number, toString a, p2, n2⟩ (.cint a))
          (.econst ⟨.number, toString b, p3, n3⟩ (.cint b))) =
        .ok (.econst ⟨.number, toString a, p2, n2⟩ (.cint (a / b))))
    ∧ (b = 0 →
      constant_fold pun
        (.binop ⟨.operator, "/", p1, n1⟩
          (.econst ⟨.number, toString a, p2, n2⟩ (.cint a))
          (.econst ⟨.number, toString b, p3, n3⟩ (.cint b))) =
        .error (.ub "integer division by zero"))
    ∧ (b ≠ 0 →
      constant_fold pun
        (.binop ⟨.operator, "%", p1, n1⟩
          (.econst ⟨.number, toString a, p2, n2⟩ (.cint a))
          (.econst ⟨.number, toString b, p3, n3⟩ (.cint b))) =
        .ok (.econst ⟨.number, toString a, p2, n2⟩ (.cint (a % b))))
    ∧ (b = 0 →
      constant_fold pun
        (.binop ⟨.operator, "%", p1, n1⟩
          (.econst ⟨.number, toString a, p2, n2⟩ (.cint a))
          (.econst ⟨.number, toString b, p3, n3⟩ (.cint b))) =
        .error (.ub "integer remainder by zero")) := by
  refine ⟨fun hb => ?_, fun hb => ?_, fun hb => ?_, fun hb => ?_⟩ <;>
    simp [constant_fold, fold_binop_step, binop_resolve, isIdentC,
      const_combine_int_u64, u64div, u64mod, hb, bind, Except.bind]

/-- Witness for C10: 7 / 2 folds to 3, and 7 / 0 is the undefined
outcome, not a fold error. -/
theorem claim_C10_witness :
    constant_fold punZero
      (.binop ⟨.operator, "/", 0, 1⟩
        (.econst ⟨.number, toString 7, 0, 1⟩ (.cint 7))
        (.econst ⟨.number, toString 2, 4, 1⟩ (.cint 2))) =
      .ok (.econst ⟨.number, toString 7, 0, 1⟩ (.cint (7 / 2)))
    ∧ constant_fold punZero
        (.binop ⟨.operator, "/", 0, 1⟩
          (.econst ⟨.number, toString 7, 0, 1⟩ (.cint 7))
          (.econst ⟨.number, toString 0, 4, 1⟩ (.cint 0))) =
      .error (.ub "integer division by zero") :=
  ⟨(claim_C10_division_unguarded punZero 7 2 0 1 0 1 4 1).1 (by decide),
   (claim_C10_division_unguarded punZero 7 0 0 1 0 1 4 1).2.1 rfl⟩

end Rath
